import Mathlib

/-!
Shallow embedding of the live-reload orchestration core of `atom-veda`
(`src/app.ts`, class `GlslLivecoder`).  External collaborators (file
loader, external validator, glslify preprocessor, configuration object,
path library) are modelled as an explicit environment of functions; a
fallible collaborator returns `Option`.  Each operation additionally
returns a trace of the externally observable calls it made (file loads,
validator invocations, dispatches to the player backend, `console.error`
diagnostics, backend/control-source lifecycle calls), so that claims
about "what was invoked, and in which order" are statable.
-/

namespace AtomVeda

/-- One entry of `rc.PASSES`: a pass specification as consumed by
`createPasses`.  `vs`/`fs` are optional references to shader files;
`TARGET`/`FLOAT`/`WIDTH`/`HEIGHT` are carried through unchanged.  An
absent field is `none`; a JS falsy string value (the empty string) is
treated as unset by the code's truthiness tests, see `truthy`. -/
structure PassSpec where
  vs : Option String := none
  fs : Option String := none
  TARGET : Option String := none
  FLOAT : Option Bool := none
  WIDTH : Option Nat := none
  HEIGHT : Option Nat := none
deriving Repr, DecidableEq

/-- An assembled pass: the object built by the mapper inside
`createPasses` (`src/app.ts` lines 214-243). -/
structure Pass where
  vs : Option String := none
  fs : Option String := none
  TARGET : Option String := none
  FLOAT : Option Bool := none
  WIDTH : Option Nat := none
  HEIGHT : Option Nat := none
deriving Repr, DecidableEq

/-- JS truthiness of an optional string field: `undefined`, `null` and
the empty string are falsy. -/
def truthy : Option String → Bool
  | none => false
  | some s => !s.isEmpty

/-- Externally observable calls of the build pipeline. -/
inductive Ev where
  | loadFileCall (path : String)
  | validatorCall (shader : String) (sfx : String)
  | glslifyCall (source : String)
  | dispatchShader (passes : List Pass)
  | dispatchSoundShader (text : String)
  | consoleError
deriving Repr, DecidableEq

/-- The resolved configuration snapshot fields consumed by
`loadShaderOfEditor`: the `glslify` toggle and the ordered pass
specifications. -/
structure Rc where
  glslify : Bool
  PASSES : List PassSpec
deriving Repr, DecidableEq

/-- The external collaborators of the build pipeline.  A collaborator
that can throw or reject is modelled with an `Option` result. -/
structure Env where
  /-- `loadFile(glslangValidatorPath, resolvedPath)`: load-and-validate a
  referenced shader file; rejection is `none`. -/
  loadFile : String → String → Option String
  /-- `validator(glslangValidatorPath, shader, sfx)`: external validation
  of the edited shader; rejection is `none`. -/
  validator : String → String → String → Option Unit
  /-- `glslify(shader, basedir)`: synchronous macro preprocessing; a
  thrown error is `none`. -/
  glslify : String → String → Option String
  /-- `path.dirname`. -/
  pathDirname : String → String
  /-- `path.resolve(dirname, p)`. -/
  pathResolve : String → String → String
  /-- `config.setFileSettingsByString(filepath, headComment)` followed by
  `config.createRc()`: the refreshed visual snapshot; a thrown error is
  `none`. -/
  setFileSettingsAndCreateRc : String → Option String → Option Rc
  /-- `config.setSoundSettingsByString(filepath, headComment)` followed
  by `config.createSoundRc()`: the refreshed sound snapshot. -/
  setSoundSettingsAndCreateRc : String → Option String → Option Rc

/-- The mapper of `createPasses` for index `i` (`src/app.ts` lines
214-243): carry the four attributes through; if neither side is set,
the edited shader fills the side selected by the suffix; otherwise each
set side is loaded from its referenced file (`vs` first, then `fs`),
and on the last pass the edited shader additionally fills the opposite
side when the suffix indicates it. -/
def assemblePass (env : Env) (vpath shader sfx dirname : String)
    (lastPass i : Nat) (rcPass : PassSpec) : Option Pass × List Ev :=
  let pass0 : Pass :=
    { TARGET := rcPass.TARGET, FLOAT := rcPass.FLOAT,
      WIDTH := rcPass.WIDTH, HEIGHT := rcPass.HEIGHT }
  if !truthy rcPass.fs && !truthy rcPass.vs then
    if sfx == ".vert" || sfx == ".vs" then
      (some { pass0 with vs := some shader }, [])
    else
      (some { pass0 with fs := some shader }, [])
  else
    let vsStep : Option Pass × List Ev :=
      if truthy rcPass.vs then
        let p := env.pathResolve dirname (rcPass.vs.getD "")
        match env.loadFile vpath p with
        | none => (none, [Ev.loadFileCall p])
        | some content =>
          let p1 : Pass := { pass0 with vs := some content }
          (some (if i == lastPass && (sfx == ".frag" || sfx == ".fs") then
                   { p1 with fs := some shader }
                 else p1),
           [Ev.loadFileCall p])
      else (some pass0, [])
    match vsStep with
    | (none, ev) => (none, ev)
    | (some p1, ev) =>
      if truthy rcPass.fs then
        let q := env.pathResolve dirname (rcPass.fs.getD "")
        match env.loadFile vpath q with
        | none => (none, ev ++ [Ev.loadFileCall q])
        | some content =>
          let p2 : Pass := { p1 with fs := some content }
          (some (if i == lastPass && (sfx == ".vert" || sfx == ".vs") then
                   { p2 with vs := some shader }
                 else p2),
           ev ++ [Ev.loadFileCall q])
      else (some p1, ev)

/-- `Promise.all` over the indexed mapper, starting at index `i`: every
mapper runs (its trace is kept), and the combined result rejects when
any single one rejects. -/
def assembleAll (env : Env) (vpath shader sfx dirname : String)
    (lastPass : Nat) : Nat → List PassSpec → Option (List Pass) × List Ev
  | _, [] => (some [], [])
  | i, s :: rest =>
    let r := assemblePass env vpath shader sfx dirname lastPass i s
    let rs := assembleAll env vpath shader sfx dirname lastPass (i + 1) rest
    match r.1, rs.1 with
    | some p, some ps => (some (p :: ps), r.2 ++ rs.2)
    | _, _ => (none, r.2 ++ rs.2)

/-- `createPasses(rcPasses, shader, sfx, dirname)` (`src/app.ts` lines
207-245): an empty specification list is first coerced to a single
default specification, then every specification is assembled. -/
def createPasses (env : Env) (vpath : String) (rcPasses : List PassSpec)
    (shader sfx dirname : String) : Option (List Pass) × List Ev :=
  let rcPasses := if rcPasses.length = 0 then [{}] else rcPasses
  assembleAll env vpath shader sfx dirname (rcPasses.length - 1) 0 rcPasses

/-- An active text editor: its file path (`editor.getPath()`) and its
current text (`editor.getText()`). -/
structure Editor where
  path : String
  text : String
deriving Repr, DecidableEq

/-- The session state the build pipeline reads and writes: the last
successfully built visual shader (`lastShader`) and the last successful
sound shader (`lastSoundShader`). -/
structure AppState where
  lastShader : List Pass
  lastSoundShader : String
deriving Repr, DecidableEq

/-- Suffix classification of `src/app.ts` line 255, the regex
match on the five recognized extensions.  No string can end in two of
the five alternatives at once (equal-length alternatives differ, and
the longer ones end in a character no shorter one ends in), so testing
them in the regex's alternation order is an exact model of the match. -/
def matchSuffix (filepath : String) : Option String :=
  if (".glsl".data.isSuffixOf filepath.data) then some ".glsl"
  else if (".frag".data.isSuffixOf filepath.data) then some ".frag"
  else if (".vert".data.isSuffixOf filepath.data) then some ".vert"
  else if (".fs".data.isSuffixOf filepath.data) then some ".fs"
  else if (".vs".data.isSuffixOf filepath.data) then some ".vs"
  else none

/-- Split a character list at the first occurrence of `pat`: the part
before the occurrence and the part after it. -/
def splitFirst (pat : List Char) : List Char → Option (List Char × List Char)
  | [] => if pat.isEmpty then some ([], []) else none
  | c :: cs =>
    if pat.isPrefixOf (c :: cs) then some ([], (c :: cs).drop pat.length)
    else
      match splitFirst pat cs with
      | some (before, after) => some (c :: before, after)
      | none => none

/-- The head-comment extraction of `src/app.ts` line 267: the body of
the first block comment (first comment opener, then the nearest
comment closer after it, non-greedy), or `none` when the source has no
complete block comment. -/
def extractHeadComment (s : String) : Option String :=
  match splitFirst ['/', '*'] s.data with
  | none => none
  | some (_, rest) =>
    match splitFirst ['*', '/'] rest with
    | none => none
    | some (body, _) => some (String.mk body)

/-- The optional glslify step (`src/app.ts` lines 277-279): when the
snapshot requests preprocessing, rewrite the shader text relative to
the file's directory; otherwise keep it. -/
def preprocess (env : Env) (rc : Rc) (filepath shader0 : String) :
    Option String × List Ev :=
  if rc.glslify then
    match env.glslify shader0 (env.pathDirname filepath) with
    | none => (none, [Ev.glslifyCall shader0])
    | some s => (some s, [Ev.glslifyCall shader0])
  else (some shader0, [])

/-- The validation step (`src/app.ts` lines 281-286): visual mode
validates the shader against the suffix, sound mode skips validation. -/
def runValidator (env : Env) (vpath shader sfx : String) (isSound : Bool) :
    Bool × List Ev :=
  if isSound then (true, [])
  else
    match env.validator vpath shader sfx with
    | none => (false, [Ev.validatorCall shader sfx])
    | some _ => (true, [Ev.validatorCall shader sfx])

/-- The promise chain of `loadShaderOfEditor` after the synchronous
prologue (`src/app.ts` lines 265-296): configuration refresh, optional
preprocessing, validation (visual only), pass assembly (both modes),
then the success dispatch-and-store.  A `none` result is the rejection
that the final catch converts into a logged diagnostic. -/
def buildChain (env : Env) (vpath : String) (st : AppState)
    (filepath dirname sfx shader0 : String) (isSound : Bool) :
    Option AppState × List Ev :=
  match (if isSound then
           env.setSoundSettingsAndCreateRc filepath (extractHeadComment shader0)
         else
           env.setFileSettingsAndCreateRc filepath (extractHeadComment shader0)) with
  | none => (none, [])
  | some rc =>
    match preprocess env rc filepath shader0 with
    | (none, ev0) => (none, ev0)
    | (some shader, ev0) =>
      match runValidator env vpath shader sfx isSound with
      | (false, ev1) => (none, ev0 ++ ev1)
      | (true, ev1) =>
        match createPasses env vpath rc.PASSES shader sfx dirname with
        | (none, ev2) => (none, ev0 ++ ev1 ++ ev2)
        | (some passes, ev2) =>
          if isSound then
            (some { st with lastSoundShader := shader },
             ev0 ++ ev1 ++ ev2 ++ [Ev.dispatchSoundShader shader])
          else
            (some { st with lastShader := passes },
             ev0 ++ ev1 ++ ev2 ++ [Ev.dispatchShader passes])

/-- `loadShaderOfEditor(editor, isSound)` (`src/app.ts` lines 247-300):
an absent editor resolves as a no-op; an unrecognized suffix logs a
diagnostic and resolves; otherwise the build chain runs and any
rejection is caught, logged and converted into resolution with the
session state untouched. -/
def loadShaderOfEditor (env : Env) (vpath : String) (st : AppState)
    (editor : Option Editor) (isSound : Bool) : AppState × List Ev :=
  match editor with
  | none => (st, [])
  | some ed =>
    let filepath := ed.path
    let dirname := env.pathDirname filepath
    match matchSuffix filepath with
    | none => (st, [Ev.consoleError])
    | some sfx =>
      match buildChain env vpath st filepath dirname sfx ed.text isSound with
      | (none, ev) => (st, ev ++ [Ev.consoleError])
      | (some st2, ev) => (st2, ev)

/-- A live OSC control-source instance (`OscLoader`): its bound port,
plus a model-level identity tag so that "the same instance is kept"
and "this instance was destroyed" are statable. -/
structure OscInst where
  id : Nat
  port : Nat
deriving Repr, DecidableEq

/-- A live player backend (`Player` or `PlayerServer`): the construction
arguments the orchestration hands over, plus a model-level identity
tag.  `isRemote` distinguishes `PlayerServer` from `Player`. -/
structure Backend where
  id : Nat
  isRemote : Bool
  server : Option String
  rc : Rc
  isPlaying : Bool
  lastShader : List Pass
  projectPath : Option String
deriving Repr, DecidableEq

/-- The orchestration fields touched by `onAnyChanges`: the cached
validator path, the live backend, the live control source, the session
flag and the two shader states.  `nextId` is the model's fresh-identity
supply for newly constructed instances. -/
structure OrchState where
  glslangValidatorPath : String
  player : Backend
  osc : Option OscInst
  isPlaying : Bool
  lastShader : List Pass
  lastSoundShader : String
  nextId : Nat
deriving Repr, DecidableEq

/-- The `added` side of a configuration diff, restricted to the options
`onAnyChanges` consumes.  An option absent from the diff is `none`; a
present-but-falsy value is the empty string (for `server`) or `0` (for
`osc`), matching JS truthiness. -/
structure RcDiffAdded where
  glslangValidatorPath : Option String := none
  server : Option String := none
  osc : Option Nat := none
deriving Repr, DecidableEq

/-- Externally observable lifecycle calls of `onAnyChanges`. -/
inductive CEv where
  | playerStop (id : Nat)
  | playerCreate (id : Nat) (isRemote : Bool)
  | oscDestroy (id : Nat)
  | oscCreate (id : Nat) (port : Nat)
deriving Repr, DecidableEq

/-- `src/app.ts` lines 56-58: cache the validator path when the diff
carries a truthy value for it. -/
def applyValidatorPathChange (st : OrchState) (v : Option String) : OrchState :=
  match v with
  | some p => if p.isEmpty then st else { st with glslangValidatorPath := p }
  | none => st

/-- `src/app.ts` lines 60-78: when `server` is present in the diff, stop
the current backend, build a fresh snapshot, and construct the
replacement — a `PlayerServer` for a truthy value, a `Player` bound to
a fresh view otherwise — seeded with the current `isPlaying` flag and
the last visual shader state. -/
def applyServerChange (rcNew : Rc) (projectPath : Option String)
    (st : OrchState) (v : Option String) : OrchState × List CEv :=
  match v with
  | none => (st, [])
  | some sv =>
    let stopEv := [CEv.playerStop st.player.id]
    if sv.isEmpty then
      ({ st with
          player := { id := st.nextId, isRemote := false, server := none,
                      rc := rcNew, isPlaying := st.isPlaying,
                      lastShader := st.lastShader, projectPath := none },
          nextId := st.nextId + 1 },
       stopEv ++ [CEv.playerCreate st.nextId false])
    else
      ({ st with
          player := { id := st.nextId, isRemote := true, server := some sv,
                      rc := rcNew, isPlaying := st.isPlaying,
                      lastShader := st.lastShader, projectPath := projectPath },
          nextId := st.nextId + 1 },
       stopEv ++ [CEv.playerCreate st.nextId true])

/-- `src/app.ts` lines 80-93: when `osc` is present in the diff, destroy
the live control source if the new port is falsy or differs from its
bound port, then construct a fresh one exactly when the new port is
truthy and no source remains live. -/
def applyOscChange (st : OrchState) (v : Option Nat) : OrchState × List CEv :=
  match v with
  | none => (st, [])
  | some port =>
    let destroyStep : Option OscInst × List CEv :=
      match st.osc with
      | some inst =>
        if port = 0 ∨ inst.port ≠ port then (none, [CEv.oscDestroy inst.id])
        else (some inst, [])
      | none => (none, [])
    match destroyStep with
    | (osc1, ev1) =>
      if port ≠ 0 ∧ osc1 = none then
        ({ st with osc := some { id := st.nextId, port := port },
                   nextId := st.nextId + 1 },
         ev1 ++ [CEv.oscCreate st.nextId port])
      else
        ({ st with osc := osc1 }, ev1)

/-- `onAnyChanges` (`src/app.ts` lines 55-94): the three sequential
blocks reacting to the `glslangValidatorPath`, `server` and `osc`
options of a configuration diff's added side. -/
def onAnyChanges (rcNew : Rc) (projectPath : Option String)
    (st : OrchState) (added : RcDiffAdded) : OrchState × List CEv :=
  let st1 := applyValidatorPathChange st added.glslangValidatorPath
  match applyServerChange rcNew projectPath st1 added.server with
  | (st2, evS) =>
    match applyOscChange st2 added.osc with
    | (st3, evO) => (st3, evS ++ evO)

/-- The control-source lifecycle calls of a trace. -/
def oscEvents (l : List CEv) : List CEv :=
  l.filter fun e =>
    match e with
    | CEv.oscDestroy _ => true
    | CEv.oscCreate _ _ => true
    | _ => false

/-- The backend lifecycle calls of a trace. -/
def serverEvents (l : List CEv) : List CEv :=
  l.filter fun e =>
    match e with
    | CEv.playerStop _ => true
    | CEv.playerCreate _ _ => true
    | _ => false

/-- A concrete environment: validation always succeeds, `dir/a.vert` is
the one loadable file, preprocessing appends a marker. -/
def env0 : Env where
  loadFile := fun _ p => if p = "dir/a.vert" then some "VS_TEXT" else none
  validator := fun _ _ _ => some ()
  glslify := fun s _ => some (s ++ "_G")
  pathDirname := fun _ => "dir"
  pathResolve := fun d p => d ++ "/" ++ p
  setFileSettingsAndCreateRc := fun _ _ => some { glslify := false, PASSES := [] }
  setSoundSettingsAndCreateRc := fun _ _ => some { glslify := false, PASSES := [] }

/-- A concrete environment whose sound snapshot carries an explicit
`vs` pass specification. -/
def envSoundPass : Env :=
  { env0 with
      setSoundSettingsAndCreateRc :=
        fun _ _ => some { glslify := false, PASSES := [{ vs := some "a.vert" }] } }

/-- A concrete environment whose sound snapshot enables preprocessing. -/
def envSoundGlslify : Env :=
  { env0 with
      setSoundSettingsAndCreateRc :=
        fun _ _ => some { glslify := true, PASSES := [] } }

/-- A concrete fragment-shader editor. -/
def edFrag : Editor where
  path := "shader.frag"
  text := "void main()"

/-- A concrete editor whose file has no recognized shader suffix. -/
def edTxt : Editor where
  path := "notes.txt"
  text := "hello"

/-- A concrete initial session state. -/
def st0 : AppState where
  lastShader := []
  lastSoundShader := ""






/-- A concrete resolved snapshot for configuration-change tests. -/
def rc0 : Rc where
  glslify := false
  PASSES := []

/-- A concrete orchestration state: a local backend with identity 0 and
a live control source on port 7000 with identity 1. -/
def orch0 : OrchState where
  glslangValidatorPath := "glslangValidator"
  player := { id := 0, isRemote := false, server := none, rc := rc0,
              isPlaying := false, lastShader := [], projectPath := none }
  osc := some { id := 1, port := 7000 }
  isPlaying := true
  lastShader := [{ fs := some "F" }]
  lastSoundShader := "S"
  nextId := 2






/-- An environment that can load two referenced files. -/
def envBoth : Env :=
  { env0 with
      loadFile := fun _ p =>
        if p = "dir/a.vert" then some "VS_TEXT"
        else if p = "dir/b.frag" then some "FS_TEXT"
        else none }

/-- The event shapes the pipeline stages before dispatch can emit:
preprocessing, validation and file-load calls — never a dispatch and
never a diagnostic. -/
def pipeEv (e : Ev) : Prop :=
  (∃ s, e = Ev.glslifyCall s) ∨ (∃ a b, e = Ev.validatorCall a b) ∨
    (∃ p, e = Ev.loadFileCall p)

/-- A concrete sound-mode editor with a `.fs` suffix. -/
def edFs : Editor where
  path := "sound.fs"
  text := "def s"

/-- Indexed characterization of `assembleAll`: a successful run has one
output pass per specification, the pass at offset `j` being the mapper's
result at absolute index `i + j`. -/
theorem assembleAll_get (env : Env) (vpath shader sfx dirname : String)
    (lastPass : Nat) :
    ∀ (i : Nat) (l : List PassSpec) (ps : List Pass),
      (assembleAll env vpath shader sfx dirname lastPass i l).1 = some ps →
      ps.length = l.length ∧
      ∀ j (hj : j < l.length),
        ps[j]? = (assemblePass env vpath shader sfx dirname lastPass (i + j) l[j]).1 := by
  intro i l
  induction l generalizing i with
  | nil =>
    intro ps h
    simp only [assembleAll] at h
    cases h
    exact ⟨rfl, fun j hj => absurd hj (Nat.not_lt_zero j)⟩
  | cons s rest ih =>
    intro ps h
    simp only [assembleAll] at h
    cases hr : (assemblePass env vpath shader sfx dirname lastPass i s).1 with
    | none => rw [hr] at h; simp at h
    | some p =>
      cases hrs : (assembleAll env vpath shader sfx dirname lastPass (i + 1) rest).1 with
      | none => rw [hr, hrs] at h; simp at h
      | some ps' =>
        rw [hr, hrs] at h
        simp only at h
        cases h
        obtain ⟨hlen, hidx⟩ := ih (i + 1) ps' hrs
        refine ⟨by simp [hlen], ?_⟩
        intro j hj
        cases j with
        | zero => simpa using hr.symm
        | succ j' =>
          have hj' : j' < rest.length := by simpa using hj
          have := hidx j' hj'
          have harith : i + 1 + j' = i + (j' + 1) := by omega
          rw [harith] at this
          simpa using this

/-- Claim C3: for every pass-specification list of length `N ≥ 0`,
`createPasses` succeeds with exactly `max N 1` assembled passes, and for
`N ≥ 1` the `i`-th output pass is the assembly of the `i`-th input
specification (original order preserved). -/
theorem createPasses_length_and_order (env : Env) (vpath : String)
    (specs : List PassSpec) (shader sfx dirname : String) (ps : List Pass)
    (h : (createPasses env vpath specs shader sfx dirname).1 = some ps) :
    ps.length = max specs.length 1 ∧
    ∀ i (hi : i < specs.length),
      ps[i]? = (assemblePass env vpath shader sfx dirname (specs.length - 1) i specs[i]).1 := by
  by_cases he : specs.length = 0
  · simp only [createPasses, he, if_pos] at h
    obtain ⟨hlen, _⟩ :=
      assembleAll_get env vpath shader sfx dirname (([{}] : List PassSpec).length - 1) 0 [{}] ps h
    refine ⟨?_, fun i hi => absurd hi (by omega)⟩
    simp at hlen
    simp [hlen, he]
  · simp only [createPasses, if_neg he] at h
    obtain ⟨hlen, hidx⟩ :=
      assembleAll_get env vpath shader sfx dirname (specs.length - 1) 0 specs ps h
    refine ⟨by omega, ?_⟩
    intro i hi
    simpa using hidx i hi

/-- Witness for C3 at a concrete two-specification list. -/
theorem createPasses_length_and_order_witness :
    ([{ fs := some "T" }, { fs := some "T" }] : List Pass).length
      = max ([{}, {}] : List PassSpec).length 1 := by
  have h : (createPasses env0 "v" [{}, {}] "T" ".frag" "dir").1
      = some [{ fs := some "T" }, { fs := some "T" }] := by decide
  exact (createPasses_length_and_order env0 "v" [{}, {}] "T" ".frag" "dir" _ h).1

/-- Claim C4: a pass specification that sets neither `vs` nor `fs`
receives the edited shader text on exactly one side, selected by the
edited file's suffix — `.vert`/`.vs` fill `vs`, the other recognized
suffixes fill `fs` — and the other side stays unset. -/
theorem assemblePass_default_side (env : Env) (vpath shader sfx dirname : String)
    (lastPass i : Nat) (rcPass : PassSpec)
    (hvs : rcPass.vs = none) (hfs : rcPass.fs = none) :
    ((sfx = ".vert" ∨ sfx = ".vs") →
      assemblePass env vpath shader sfx dirname lastPass i rcPass
        = (some { vs := some shader, fs := none, TARGET := rcPass.TARGET,
                  FLOAT := rcPass.FLOAT, WIDTH := rcPass.WIDTH,
                  HEIGHT := rcPass.HEIGHT }, []))
    ∧ ((sfx = ".glsl" ∨ sfx = ".frag" ∨ sfx = ".fs") →
      assemblePass env vpath shader sfx dirname lastPass i rcPass
        = (some { vs := none, fs := some shader, TARGET := rcPass.TARGET,
                  FLOAT := rcPass.FLOAT, WIDTH := rcPass.WIDTH,
                  HEIGHT := rcPass.HEIGHT }, [])) := by
  constructor
  · rintro (h | h) <;> subst h <;> simp [assemblePass, truthy, hvs, hfs]
  · rintro (h | h | h) <;> subst h <;> simp [assemblePass, truthy, hvs, hfs]

/-- Witness for C4: the spec scenario `[without sides]`, edited
`shader.frag`. -/
theorem assemblePass_default_side_witness :
    assemblePass env0 "v" "void main()" ".frag" "dir" 0 0 {}
      = (some { vs := none, fs := some "void main()", TARGET := none,
                FLOAT := none, WIDTH := none, HEIGHT := none }, []) :=
  (assemblePass_default_side env0 "v" "void main()" ".frag" "dir" 0 0 {}
    rfl rfl).2 (Or.inr (Or.inl rfl))

/-- Claim C5: when the last specification sets `vs` only and the edited
suffix is a fragment suffix, the assembled last pass carries the loaded
`vs` and the edited text as `fs` (symmetrically for `fs` only with a
vertex suffix); a non-last specification never receives the edited text
on its explicitly-unset side. -/
theorem assemblePass_last_single_side (env : Env)
    (vpath shader sfx dirname : String) (lastPass i : Nat)
    (rcPass : PassSpec) (v content : String)
    (hload : env.loadFile vpath (env.pathResolve dirname v) = some content) :
    (rcPass.vs = some v → v ≠ "" → rcPass.fs = none → i = lastPass →
      (sfx = ".frag" ∨ sfx = ".fs") →
      (assemblePass env vpath shader sfx dirname lastPass i rcPass).1
        = some { vs := some content, fs := some shader, TARGET := rcPass.TARGET,
                 FLOAT := rcPass.FLOAT, WIDTH := rcPass.WIDTH,
                 HEIGHT := rcPass.HEIGHT })
    ∧ (rcPass.fs = some v → v ≠ "" → rcPass.vs = none → i = lastPass →
      (sfx = ".vert" ∨ sfx = ".vs") →
      (assemblePass env vpath shader sfx dirname lastPass i rcPass).1
        = some { vs := some shader, fs := some content, TARGET := rcPass.TARGET,
                 FLOAT := rcPass.FLOAT, WIDTH := rcPass.WIDTH,
                 HEIGHT := rcPass.HEIGHT })
    ∧ (rcPass.vs = some v → v ≠ "" → rcPass.fs = none → i ≠ lastPass →
      (assemblePass env vpath shader sfx dirname lastPass i rcPass).1
        = some { vs := some content, fs := none, TARGET := rcPass.TARGET,
                 FLOAT := rcPass.FLOAT, WIDTH := rcPass.WIDTH,
                 HEIGHT := rcPass.HEIGHT })
    ∧ (rcPass.fs = some v → v ≠ "" → rcPass.vs = none → i ≠ lastPass →
      (assemblePass env vpath shader sfx dirname lastPass i rcPass).1
        = some { vs := none, fs := some content, TARGET := rcPass.TARGET,
                 FLOAT := rcPass.FLOAT, WIDTH := rcPass.WIDTH,
                 HEIGHT := rcPass.HEIGHT }) := by
  refine ⟨?_, ?_, ?_, ?_⟩
  · intro hvs hv hfs hi hsfx
    have hv' : v.isEmpty = false := by
      cases hemp : v.isEmpty
      · rfl
      · exact absurd ((String.isEmpty_iff _).mp hemp) hv
    subst hi
    rcases hsfx with h | h <;> subst h <;>
      simp [assemblePass, truthy, hvs, hfs, hv', hload]
  · intro hfs hv hvs hi hsfx
    have hv' : v.isEmpty = false := by
      cases hemp : v.isEmpty
      · rfl
      · exact absurd ((String.isEmpty_iff _).mp hemp) hv
    subst hi
    rcases hsfx with h | h <;> subst h <;>
      simp [assemblePass, truthy, hvs, hfs, hv', hload]
  · intro hvs hv hfs hi
    have hv' : v.isEmpty = false := by
      cases hemp : v.isEmpty
      · rfl
      · exact absurd ((String.isEmpty_iff _).mp hemp) hv
    have hi' : (i == lastPass) = false := beq_eq_false_iff_ne.mpr hi
    simp [assemblePass, truthy, hvs, hfs, hv', hload, hi']
  · intro hfs hv hvs hi
    have hv' : v.isEmpty = false := by
      cases hemp : v.isEmpty
      · rfl
      · exact absurd ((String.isEmpty_iff _).mp hemp) hv
    have hi' : (i == lastPass) = false := beq_eq_false_iff_ne.mpr hi
    simp [assemblePass, truthy, hvs, hfs, hv', hload, hi']

/-- Witness for C5: the spec scenario — only pass sets `vs := a.vert`,
edited file is a fragment shader, loader returns `VS_TEXT`. -/
theorem assemblePass_last_single_side_witness :
    (assemblePass env0 "v" "void main()" ".frag" "dir" 0 0
        { vs := some "a.vert" }).1
      = some { vs := some "VS_TEXT", fs := some "void main()", TARGET := none,
               FLOAT := none, WIDTH := none, HEIGHT := none } :=
  (assemblePass_last_single_side env0 "v" "void main()" ".frag" "dir" 0 0
      { vs := some "a.vert" } "a.vert" "VS_TEXT" (by decide)).1
    rfl (by decide) rfl rfl (Or.inl rfl)

/-- Claim C10: when the last specification sets both `vs` and `fs`, the
two sides resolve asymmetrically because `vs` is processed before `fs`:
a vertex suffix ends with the edited text in `vs` (the loaded `vs`
content is overwritten) and the loaded `fs` content kept, while a
fragment suffix ends with both loaded contents (the edited text written
into `fs` by the `vs` step is overwritten by the `fs` load). -/
theorem assemblePass_last_both_sides (env : Env)
    (vpath shader sfx dirname : String) (lastPass : Nat)
    (rcPass : PassSpec) (v f cv cf : String)
    (hvs : rcPass.vs = some v) (hv : v ≠ "")
    (hfs : rcPass.fs = some f) (hf : f ≠ "")
    (hlv : env.loadFile vpath (env.pathResolve dirname v) = some cv)
    (hlf : env.loadFile vpath (env.pathResolve dirname f) = some cf) :
    ((sfx = ".vert" ∨ sfx = ".vs") →
      (assemblePass env vpath shader sfx dirname lastPass lastPass rcPass).1
        = some { vs := some shader, fs := some cf, TARGET := rcPass.TARGET,
                 FLOAT := rcPass.FLOAT, WIDTH := rcPass.WIDTH,
                 HEIGHT := rcPass.HEIGHT })
    ∧ ((sfx = ".frag" ∨ sfx = ".fs") →
      (assemblePass env vpath shader sfx dirname lastPass lastPass rcPass).1
        = some { vs := some cv, fs := some cf, TARGET := rcPass.TARGET,
                 FLOAT := rcPass.FLOAT, WIDTH := rcPass.WIDTH,
                 HEIGHT := rcPass.HEIGHT }) := by
  have hv' : v.isEmpty = false := by
    cases hemp : v.isEmpty
    · rfl
    · exact absurd ((String.isEmpty_iff _).mp hemp) hv
  have hf' : f.isEmpty = false := by
    cases hemp : f.isEmpty
    · rfl
    · exact absurd ((String.isEmpty_iff _).mp hemp) hf
  constructor
  · rintro (h | h) <;> subst h <;>
      simp [assemblePass, truthy, hvs, hfs, hv', hf', hlv, hlf]
  · rintro (h | h) <;> subst h <;>
      simp [assemblePass, truthy, hvs, hfs, hv', hf', hlv, hlf]

/-- Witness for C10: both sides set on the only pass, edited file a
vertex shader — the loaded vertex text is discarded for the edited
text, the loaded fragment text is kept. -/
theorem assemblePass_last_both_sides_witness :
    (assemblePass envBoth "v" "VEDIT" ".vert" "dir" 0 0
        { vs := some "a.vert", fs := some "b.frag" }).1
      = some { vs := some "VEDIT", fs := some "FS_TEXT", TARGET := none,
               FLOAT := none, WIDTH := none, HEIGHT := none } :=
  (assemblePass_last_both_sides envBoth "v" "VEDIT" ".vert" "dir" 0
      { vs := some "a.vert", fs := some "b.frag" } "a.vert" "b.frag"
      "VS_TEXT" "FS_TEXT" rfl (by decide) rfl (by decide)
      (by decide) (by decide)).1 (Or.inl rfl)

theorem preprocess_events (env : Env) (rc : Rc) (filepath shader0 : String) :
    ∀ e ∈ (preprocess env rc filepath shader0).2, pipeEv e := by
  intro e he
  simp only [preprocess] at he
  split at he
  · split at he <;> simp_all [pipeEv]
  · simp at he

theorem runValidator_events (env : Env) (vpath shader sfx : String)
    (isSound : Bool) :
    ∀ e ∈ (runValidator env vpath shader sfx isSound).2, pipeEv e := by
  intro e he
  simp only [runValidator] at he
  split at he
  · simp at he
  · split at he <;> simp_all [pipeEv]

theorem assemblePass_events (env : Env) (vpath shader sfx dirname : String)
    (lastPass i : Nat) (rcPass : PassSpec) :
    ∀ e ∈ (assemblePass env vpath shader sfx dirname lastPass i rcPass).2,
      pipeEv e := by
  intro e he
  cases h1 : (!truthy rcPass.fs && !truthy rcPass.vs) with
  | true =>
    simp [assemblePass, h1] at he
    split at he <;> simp at he
  | false =>
    cases h2 : truthy rcPass.vs with
    | true =>
      cases hload : env.loadFile vpath (env.pathResolve dirname (rcPass.vs.getD "")) with
      | none =>
        simp [assemblePass, h1, h2, hload] at he
        exact Or.inr (Or.inr ⟨_, he⟩)
      | some content =>
        cases h3 : truthy rcPass.fs with
        | true =>
          cases hloadf : env.loadFile vpath (env.pathResolve dirname (rcPass.fs.getD "")) with
          | none =>
            simp [assemblePass, h1, h2, h3, hload, hloadf] at he
            rcases he with he | he <;> exact Or.inr (Or.inr ⟨_, he⟩)
          | some c2 =>
            simp [assemblePass, h1, h2, h3, hload, hloadf] at he
            rcases he with he | he <;> exact Or.inr (Or.inr ⟨_, he⟩)
        | false =>
          simp [assemblePass, h1, h2, h3, hload] at he
          exact Or.inr (Or.inr ⟨_, he⟩)
    | false =>
      cases h3 : truthy rcPass.fs with
      | true =>
        cases hloadf : env.loadFile vpath (env.pathResolve dirname (rcPass.fs.getD "")) with
        | none =>
          simp [assemblePass, h1, h2, h3, hloadf] at he
          exact Or.inr (Or.inr ⟨_, he⟩)
        | some c2 =>
          simp [assemblePass, h1, h2, h3, hloadf] at he
          exact Or.inr (Or.inr ⟨_, he⟩)
      | false =>
        rw [h2, h3] at h1
        simp at h1

theorem assembleAll_events (env : Env) (vpath shader sfx dirname : String)
    (lastPass : Nat) :
    ∀ (i : Nat) (l : List PassSpec),
      ∀ e ∈ (assembleAll env vpath shader sfx dirname lastPass i l).2, pipeEv e := by
  intro i l
  induction l generalizing i with
  | nil => intro e he; simp [assembleAll] at he
  | cons s rest ih =>
    intro e he
    simp only [assembleAll] at he
    have hmem : e ∈ (assemblePass env vpath shader sfx dirname lastPass i s).2 ++
        (assembleAll env vpath shader sfx dirname lastPass (i + 1) rest).2 := by
      split at he <;> simpa using he
    rcases List.mem_append.mp hmem with hm | hm
    · exact assemblePass_events env vpath shader sfx dirname lastPass i s e hm
    · exact ih (i + 1) e hm

theorem createPasses_events (env : Env) (vpath : String)
    (rcPasses : List PassSpec) (shader sfx dirname : String) :
    ∀ e ∈ (createPasses env vpath rcPasses shader sfx dirname).2, pipeEv e := by
  intro e he
  simp only [createPasses] at he
  split at he <;>
    exact assembleAll_events env vpath shader sfx dirname _ 0 _ e he

/-- Case analysis of the promise chain: it either rejects with a trace
of benign pipeline events only, or succeeds, updating exactly the
mode's shader state and ending the trace with the matching dispatch. -/
theorem buildChain_cases (env : Env) (vpath : String) (st : AppState)
    (filepath dirname sfx shader0 : String) (isSound : Bool) :
    (∃ ev, buildChain env vpath st filepath dirname sfx shader0 isSound = (none, ev) ∧
      ∀ e ∈ ev, pipeEv e)
    ∨ (isSound = true ∧ ∃ s ev,
        buildChain env vpath st filepath dirname sfx shader0 isSound
          = (some { st with lastSoundShader := s }, ev ++ [Ev.dispatchSoundShader s]) ∧
        ∀ e ∈ ev, pipeEv e)
    ∨ (isSound = false ∧ ∃ ps ev,
        buildChain env vpath st filepath dirname sfx shader0 isSound
          = (some { st with lastShader := ps }, ev ++ [Ev.dispatchShader ps]) ∧
        ∀ e ∈ ev, pipeEv e) := by
  cases hcfg : (if isSound then
                  env.setSoundSettingsAndCreateRc filepath (extractHeadComment shader0)
                else
                  env.setFileSettingsAndCreateRc filepath (extractHeadComment shader0)) with
  | none =>
    refine Or.inl ⟨[], ?_, by simp⟩
    simp only [buildChain, hcfg]
  | some rc =>
    rcases hp : preprocess env rc filepath shader0 with ⟨o0, ev0⟩
    have hev0 : ∀ e ∈ ev0, pipeEv e := by
      have h := preprocess_events env rc filepath shader0
      rw [hp] at h; exact h
    cases o0 with
    | none =>
      refine Or.inl ⟨ev0, ?_, hev0⟩
      simp only [buildChain, hcfg, hp]
    | some shader =>
      rcases hv : runValidator env vpath shader sfx isSound with ⟨b, ev1⟩
      have hev1 : ∀ e ∈ ev1, pipeEv e := by
        have h := runValidator_events env vpath shader sfx isSound
        rw [hv] at h; exact h
      cases b with
      | false =>
        refine Or.inl ⟨ev0 ++ ev1, ?_, ?_⟩
        · simp only [buildChain, hcfg, hp, hv]
        · intro e he
          rcases List.mem_append.mp he with h | h
          exacts [hev0 e h, hev1 e h]
      | true =>
        rcases hc : createPasses env vpath rc.PASSES shader sfx dirname with ⟨oc, ev2⟩
        have hev2 : ∀ e ∈ ev2, pipeEv e := by
          have h := createPasses_events env vpath rc.PASSES shader sfx dirname
          rw [hc] at h; exact h
        have hall : ∀ e ∈ ev0 ++ ev1 ++ ev2, pipeEv e := by
          intro e he
          rcases List.mem_append.mp he with h | h
          · rcases List.mem_append.mp h with h2 | h2
            exacts [hev0 e h2, hev1 e h2]
          · exact hev2 e h
        cases oc with
        | none =>
          refine Or.inl ⟨ev0 ++ ev1 ++ ev2, ?_, hall⟩
          simp only [buildChain, hcfg, hp, hv, hc]
        | some passes =>
          cases isSound with
          | true =>
            simp only [if_pos rfl] at hcfg
            refine Or.inr (Or.inl ⟨rfl, shader, ev0 ++ ev1 ++ ev2, ?_, hall⟩)
            simp only [buildChain, hcfg, hp, hv, hc]
            simp
          | false =>
            simp only [Bool.false_eq_true, if_neg, if_false] at hcfg
            refine Or.inr (Or.inr ⟨rfl, passes, ev0 ++ ev1 ++ ev2, ?_, hall⟩)
            simp [buildChain, hcfg, hp, hv, hc]

theorem pipeEv_ne_consoleError {e : Ev} (h : pipeEv e) : e ≠ Ev.consoleError := by
  rcases h with ⟨s, rfl⟩ | ⟨a, b, rfl⟩ | ⟨p, rfl⟩ <;> simp

theorem pipeEv_ne_dispatchShader {e : Ev} (h : pipeEv e) (ps : List Pass) :
    e ≠ Ev.dispatchShader ps := by
  rcases h with ⟨s, rfl⟩ | ⟨a, b, rfl⟩ | ⟨p, rfl⟩ <;> simp

theorem pipeEv_ne_dispatchSoundShader {e : Ev} (h : pipeEv e) (s : String) :
    e ≠ Ev.dispatchSoundShader s := by
  rcases h with ⟨x, rfl⟩ | ⟨a, b, rfl⟩ | ⟨p, rfl⟩ <;> simp

/-- Claim C1: for every build-pipeline invocation, a failure at any step
(signalled by the logged diagnostic) leaves the session state exactly
equal to its pre-invocation value, and the state is replaced — in
exactly the one field of the invoked mode, witnessed by the matching
dispatch — only after every step has succeeded. -/
theorem loadShaderOfEditor_state_discipline (env : Env) (vpath : String)
    (st : AppState) (editor : Option Editor) (isSound : Bool) :
    (Ev.consoleError ∈ (loadShaderOfEditor env vpath st editor isSound).2 →
      (loadShaderOfEditor env vpath st editor isSound).1 = st)
    ∧ ((loadShaderOfEditor env vpath st editor isSound).1 ≠ st →
      (∃ ps, (loadShaderOfEditor env vpath st editor isSound).1
               = { st with lastShader := ps } ∧
             Ev.dispatchShader ps ∈ (loadShaderOfEditor env vpath st editor isSound).2) ∨
      (∃ s, (loadShaderOfEditor env vpath st editor isSound).1
              = { st with lastSoundShader := s } ∧
            Ev.dispatchSoundShader s
              ∈ (loadShaderOfEditor env vpath st editor isSound).2)) := by
  cases editor with
  | none => exact ⟨fun _ => rfl, fun h => absurd rfl h⟩
  | some ed =>
    cases hm : matchSuffix ed.path with
    | none =>
      constructor
      · intro _
        simp [loadShaderOfEditor, hm]
      · intro h
        exact absurd (by simp [loadShaderOfEditor, hm]) h
    | some sfx =>
      rcases buildChain_cases env vpath st ed.path (env.pathDirname ed.path) sfx
          ed.text isSound with
        ⟨ev, hbc, hev⟩ | ⟨hs, s, ev, hbc, hev⟩ | ⟨hs, ps, ev, hbc, hev⟩
      · constructor
        · intro _
          simp [loadShaderOfEditor, hm, hbc]
        · intro h
          exact absurd (by simp [loadShaderOfEditor, hm, hbc]) h
      · constructor
        · intro hmem
          exfalso
          have hmem2 : Ev.consoleError ∈ ev ++ [Ev.dispatchSoundShader s] := by
            simpa [loadShaderOfEditor, hm, hbc] using hmem
          rcases List.mem_append.mp hmem2 with h | h
          · exact pipeEv_ne_consoleError (hev _ h) rfl
          · simp at h
        · intro _
          refine Or.inr ⟨s, ?_, ?_⟩
          · simp [loadShaderOfEditor, hm, hbc]
          · simp [loadShaderOfEditor, hm, hbc]
      · constructor
        · intro hmem
          exfalso
          have hmem2 : Ev.consoleError ∈ ev ++ [Ev.dispatchShader ps] := by
            simpa [loadShaderOfEditor, hm, hbc] using hmem
          rcases List.mem_append.mp hmem2 with h | h
          · exact pipeEv_ne_consoleError (hev _ h) rfl
          · simp at h
        · intro _
          refine Or.inl ⟨ps, ?_, ?_⟩
          · simp [loadShaderOfEditor, hm, hbc]
          · simp [loadShaderOfEditor, hm, hbc]

/-- Witness for C1: a fully successful concrete visual build replaces
the visual state and is witnessed by its dispatch. -/
theorem loadShaderOfEditor_state_discipline_witness :
    (∃ ps, (loadShaderOfEditor env0 "v" st0 (some edFrag) false).1
             = { st0 with lastShader := ps } ∧
           Ev.dispatchShader ps
             ∈ (loadShaderOfEditor env0 "v" st0 (some edFrag) false).2) ∨
    (∃ s, (loadShaderOfEditor env0 "v" st0 (some edFrag) false).1
            = { st0 with lastSoundShader := s } ∧
          Ev.dispatchSoundShader s
            ∈ (loadShaderOfEditor env0 "v" st0 (some edFrag) false).2) :=
  (loadShaderOfEditor_state_discipline env0 "v" st0 (some edFrag) false).2 (by decide)

/-- Claim C6: an absent active editor resolves as a no-op with no
diagnostic and no state change; an unrecognized file suffix resolves as
a no-op after exactly one logged diagnostic, again with no state
change.  (That the pipeline always resolves is structural: the embedded
`loadShaderOfEditor` is a total function — the final catch converts
every rejection into resolution.) -/
theorem loadShaderOfEditor_noop_cases (env : Env) (vpath : String)
    (st : AppState) (isSound : Bool) :
    loadShaderOfEditor env vpath st none isSound = (st, [])
    ∧ ∀ ed : Editor, matchSuffix ed.path = none →
        loadShaderOfEditor env vpath st (some ed) isSound
          = (st, [Ev.consoleError]) := by
  refine ⟨rfl, fun ed h => by simp [loadShaderOfEditor, h]⟩

/-- Witness for C6 at a concrete non-shader file. -/
theorem loadShaderOfEditor_noop_cases_witness :
    loadShaderOfEditor env0 "v" st0 (some edTxt) false = (st0, [Ev.consoleError]) :=
  (loadShaderOfEditor_noop_cases env0 "v" st0 false).2 edTxt (by decide)

/-- Counterexample to C2 as stated: a sound-mode build invocation does
run pass assembly — here it performs the per-pass explicit-source file
load of the sound snapshot's `vs` specification. -/
theorem soundMode_skips_assembly_cex :
    Ev.loadFileCall "dir/a.vert"
      ∈ (loadShaderOfEditor envSoundPass "v" st0 (some edFrag) true).2 := by
  decide

/-- Claim C2 (amended): pass assembly runs on every build invocation,
sound mode included — a sound-mode build performs the pass assembly of
the sound snapshot's pass specifications, per-pass explicit-source file
loads included — but its result is consumed only by visual mode: a
sound-mode invocation never dispatches assembled passes. -/
theorem soundBuild_runs_assembly_result_discarded (env : Env) (vpath : String)
    (st : AppState) :
    (∀ (editor : Option Editor) (ps : List Pass),
      Ev.dispatchShader ps ∉ (loadShaderOfEditor env vpath st editor true).2)
    ∧ (∀ (ed : Editor) (sfx : String) (rc : Rc),
        matchSuffix ed.path = some sfx →
        env.setSoundSettingsAndCreateRc ed.path (extractHeadComment ed.text) = some rc →
        ∀ (shader : String) (ev0 : List Ev),
          preprocess env rc ed.path ed.text = (some shader, ev0) →
          ∀ e ∈ (createPasses env vpath rc.PASSES shader sfx (env.pathDirname ed.path)).2,
            e ∈ (loadShaderOfEditor env vpath st (some ed) true).2) := by
  constructor
  · intro editor ps hmem
    cases editor with
    | none => simp [loadShaderOfEditor] at hmem
    | some ed =>
      cases hm : matchSuffix ed.path with
      | none => simp [loadShaderOfEditor, hm] at hmem
      | some sfx =>
        rcases buildChain_cases env vpath st ed.path (env.pathDirname ed.path) sfx
            ed.text true with
          ⟨ev, hbc, hev⟩ | ⟨hs, s, ev, hbc, hev⟩ | ⟨hs, ps2, ev, hbc, hev⟩
        · have hmem2 : Ev.dispatchShader ps ∈ ev ++ [Ev.consoleError] := by
            simpa [loadShaderOfEditor, hm, hbc] using hmem
          rcases List.mem_append.mp hmem2 with h | h
          · exact pipeEv_ne_dispatchShader (hev _ h) ps rfl
          · simp at h
        · have hmem2 : Ev.dispatchShader ps ∈ ev ++ [Ev.dispatchSoundShader s] := by
            simpa [loadShaderOfEditor, hm, hbc] using hmem
          rcases List.mem_append.mp hmem2 with h | h
          · exact pipeEv_ne_dispatchShader (hev _ h) ps rfl
          · simp at h
        · simp at hs
  · intro ed sfx rc hm hrc shader ev0 hpre e he
    rcases hc : createPasses env vpath rc.PASSES shader sfx (env.pathDirname ed.path) with
      ⟨oc, ev2⟩
    rw [hc] at he
    cases oc with
    | none =>
      simp [loadShaderOfEditor, buildChain, runValidator, hm, hrc, hpre, hc]
      simp only at he
      simp [he]
    | some passes =>
      simp [loadShaderOfEditor, buildChain, runValidator, hm, hrc, hpre, hc]
      simp only at he
      simp [he]

/-- Witness for C2 (amended): the pass-assembly file load of a concrete
sound build appears in the build's trace. -/
theorem soundBuild_runs_assembly_result_discarded_witness :
    Ev.loadFileCall "dir/a.vert"
      ∈ (loadShaderOfEditor envSoundPass "v" st0 (some edFs) true).2 :=
  (soundBuild_runs_assembly_result_discarded envSoundPass "v" st0).2 edFs ".fs"
    { glslify := false, PASSES := [{ vs := some "a.vert" }] } (by decide) (by decide)
    "def s" [] (by decide) (Ev.loadFileCall "dir/a.vert") (by decide)

/-- Counterexample to C9 as stated: with preprocessing enabled, the
text stored as Sound Shader State and dispatched is the preprocessed
text, not the raw editor text read at the start of the build. -/
theorem soundBuild_raw_text_cex :
    Ev.dispatchSoundShader "void main()_G"
      ∈ (loadShaderOfEditor envSoundGlslify "v" st0 (some edFrag) true).2
    ∧ (loadShaderOfEditor envSoundGlslify "v" st0 (some edFrag) true).1.lastSoundShader
        ≠ edFrag.text := by
  decide

/-- Claim C9 (amended): on a successful sound-mode build, the text
stored as Sound Shader State and dispatched to the backend is the
shader text after the optional preprocessing step; it equals the raw
editor text exactly when the snapshot does not request preprocessing,
and is the preprocessor's output otherwise. -/
theorem soundBuild_stores_preprocessed_text (env : Env) (vpath : String)
    (st : AppState) (ed : Editor) (sfx : String) (rc : Rc) (shader : String)
    (ev0 : List Ev) (ps : List Pass) (ev2 : List Ev)
    (hm : matchSuffix ed.path = some sfx)
    (hrc : env.setSoundSettingsAndCreateRc ed.path (extractHeadComment ed.text) = some rc)
    (hpre : preprocess env rc ed.path ed.text = (some shader, ev0))
    (hcp : createPasses env vpath rc.PASSES shader sfx (env.pathDirname ed.path)
             = (some ps, ev2)) :
    (loadShaderOfEditor env vpath st (some ed) true).1
      = { st with lastSoundShader := shader }
    ∧ Ev.dispatchSoundShader shader
        ∈ (loadShaderOfEditor env vpath st (some ed) true).2
    ∧ (rc.glslify = false → shader = ed.text)
    ∧ (rc.glslify = true →
        env.glslify ed.text (env.pathDirname ed.path) = some shader) := by
  refine ⟨?_, ?_, ?_, ?_⟩
  · simp [loadShaderOfEditor, buildChain, runValidator, hm, hrc, hpre, hcp]
  · simp [loadShaderOfEditor, buildChain, runValidator, hm, hrc, hpre, hcp]
  · intro hg
    have h := hpre
    simp [preprocess, hg] at h
    exact h.1.symm
  · intro hg
    have h := hpre
    simp only [preprocess, hg, if_pos] at h
    cases hgl : env.glslify ed.text (env.pathDirname ed.path) with
    | none => rw [hgl] at h; simp at h
    | some s2 =>
      rw [hgl] at h
      simp at h
      rw [h.1]

/-- Witness for C9 (amended): a concrete preprocessed sound build
stores the preprocessor's output. -/
theorem soundBuild_stores_preprocessed_text_witness :
    (loadShaderOfEditor envSoundGlslify "v" st0 (some edFrag) true).1
      = { st0 with lastSoundShader := "void main()_G" } :=
  (soundBuild_stores_preprocessed_text envSoundGlslify "v" st0 edFrag ".frag"
    { glslify := true, PASSES := [] } "void main()_G" [Ev.glslifyCall "void main()"]
    [{ fs := some "void main()_G" }] [] (by decide) (by decide) (by decide)
    (by decide)).1

theorem applyValidatorPathChange_frame (st : OrchState) (v : Option String) :
    (applyValidatorPathChange st v).player = st.player
    ∧ (applyValidatorPathChange st v).osc = st.osc
    ∧ (applyValidatorPathChange st v).isPlaying = st.isPlaying
    ∧ (applyValidatorPathChange st v).lastShader = st.lastShader
    ∧ (applyValidatorPathChange st v).lastSoundShader = st.lastSoundShader
    ∧ (applyValidatorPathChange st v).nextId = st.nextId := by
  cases v with
  | none => exact ⟨rfl, rfl, rfl, rfl, rfl, rfl⟩
  | some p =>
    simp only [applyValidatorPathChange]
    split <;> exact ⟨rfl, rfl, rfl, rfl, rfl, rfl⟩

theorem applyServerChange_frame (rcNew : Rc) (projPath : Option String)
    (st : OrchState) (v : Option String) :
    (applyServerChange rcNew projPath st v).1.osc = st.osc
    ∧ (applyServerChange rcNew projPath st v).1.isPlaying = st.isPlaying
    ∧ (applyServerChange rcNew projPath st v).1.lastShader = st.lastShader
    ∧ (applyServerChange rcNew projPath st v).1.lastSoundShader = st.lastSoundShader
    ∧ oscEvents (applyServerChange rcNew projPath st v).2 = [] := by
  cases v with
  | none => exact ⟨rfl, rfl, rfl, rfl, rfl⟩
  | some sv =>
    simp only [applyServerChange]
    split <;> exact ⟨rfl, rfl, rfl, rfl, rfl⟩

theorem applyOscChange_frame (st : OrchState) (v : Option Nat) :
    (applyOscChange st v).1.player = st.player
    ∧ (applyOscChange st v).1.isPlaying = st.isPlaying
    ∧ (applyOscChange st v).1.lastShader = st.lastShader
    ∧ (applyOscChange st v).1.lastSoundShader = st.lastSoundShader
    ∧ serverEvents (applyOscChange st v).2 = [] := by
  cases v with
  | none => exact ⟨rfl, rfl, rfl, rfl, rfl⟩
  | some port =>
    simp only [applyOscChange]
    cases hosc : st.osc with
    | none =>
      split <;> exact ⟨rfl, rfl, rfl, rfl, rfl⟩
    | some inst =>
      dsimp only
      by_cases hc : port = 0 ∨ inst.port ≠ port
      · rw [if_pos hc]
        split <;> exact ⟨rfl, rfl, rfl, rfl, rfl⟩
      · rw [if_neg hc]
        split <;> exact ⟨rfl, rfl, rfl, rfl, rfl⟩

/-- Claim C7: for every configuration diff carrying the `osc` option —
if a control source is live and the new port equals its bound port, the
very same instance is kept with no destroy and no create; if the new
port is absent (falsy) or differs, the live source is destroyed, and
strictly before any creation; a new source is created exactly when the
new port is truthy and none remains live; clearing with no live source
is a no-op.  At most one instance is live afterwards by the shape of
the `osc` field. -/
theorem oscChange_lifecycle (rcNew : Rc) (projPath : Option String)
    (st : OrchState) (added : RcDiffAdded) (port : Nat)
    (h : added.osc = some port) :
    (∀ inst, st.osc = some inst → inst.port = port → port ≠ 0 →
      (onAnyChanges rcNew projPath st added).1.osc = some inst ∧
      oscEvents (onAnyChanges rcNew projPath st added).2 = [])
    ∧ (∀ inst, st.osc = some inst → port = 0 →
      (onAnyChanges rcNew projPath st added).1.osc = none ∧
      oscEvents (onAnyChanges rcNew projPath st added).2 = [CEv.oscDestroy inst.id])
    ∧ (∀ inst, st.osc = some inst → inst.port ≠ port → port ≠ 0 →
      ∃ inst2, (onAnyChanges rcNew projPath st added).1.osc = some inst2 ∧
        inst2.port = port ∧
        oscEvents (onAnyChanges rcNew projPath st added).2
          = [CEv.oscDestroy inst.id, CEv.oscCreate inst2.id port])
    ∧ (st.osc = none → port ≠ 0 →
      ∃ inst2, (onAnyChanges rcNew projPath st added).1.osc = some inst2 ∧
        inst2.port = port ∧
        oscEvents (onAnyChanges rcNew projPath st added).2
          = [CEv.oscCreate inst2.id port])
    ∧ (st.osc = none → port = 0 →
      (onAnyChanges rcNew projPath st added).1.osc = none ∧
      oscEvents (onAnyChanges rcNew projPath st added).2 = []) := by
  rcases hs : applyServerChange rcNew projPath
      (applyValidatorPathChange st added.glslangValidatorPath) added.server with ⟨st2, evS⟩
  have hosc2 : st2.osc = st.osc := by
    have a := (applyServerChange_frame rcNew projPath
      (applyValidatorPathChange st added.glslangValidatorPath) added.server).1
    rw [hs] at a
    rw [a, (applyValidatorPathChange_frame st added.glslangValidatorPath).2.1]
  have hevS : oscEvents evS = [] := by
    have a := (applyServerChange_frame rcNew projPath
      (applyValidatorPathChange st added.glslangValidatorPath) added.server).2.2.2.2
    rw [hs] at a
    exact a
  rcases ho : applyOscChange st2 added.osc with ⟨st3, evO⟩
  have hL : onAnyChanges rcNew projPath st added = (st3, evS ++ evO) := by
    simp only [onAnyChanges, hs, ho]
  have hOE : oscEvents (evS ++ evO) = oscEvents evO := by
    simp only [oscEvents] at hevS ⊢
    rw [List.filter_append, hevS, List.nil_append]
  rw [h] at ho
  refine ⟨?_, ?_, ?_, ?_, ?_⟩
  · intro inst hosc hport hp0
    have hst2osc : st2.osc = some inst := by rw [hosc2, hosc]
    have hcalc : applyOscChange st2 (some port)
        = ({ st2 with osc := some inst }, []) := by
      simp [applyOscChange, hst2osc, hport, hp0]
    rw [ho, Prod.mk.injEq] at hcalc
    rw [hL]
    dsimp only
    exact ⟨by rw [hcalc.1], by rw [hOE, hcalc.2]; rfl⟩
  · intro inst hosc hp0
    subst hp0
    have hst2osc : st2.osc = some inst := by rw [hosc2, hosc]
    have hcalc : applyOscChange st2 (some 0)
        = ({ st2 with osc := none }, [CEv.oscDestroy inst.id]) := by
      simp [applyOscChange, hst2osc]
    rw [ho, Prod.mk.injEq] at hcalc
    rw [hL]
    dsimp only
    exact ⟨by rw [hcalc.1], by rw [hOE, hcalc.2]; rfl⟩
  · intro inst hosc hne hp0
    have hst2osc : st2.osc = some inst := by rw [hosc2, hosc]
    have hcalc : applyOscChange st2 (some port)
        = ({ st2 with osc := some { id := st2.nextId, port := port },
                      nextId := st2.nextId + 1 },
           [CEv.oscDestroy inst.id, CEv.oscCreate st2.nextId port]) := by
      simp [applyOscChange, hst2osc, hne, hp0]
    rw [ho, Prod.mk.injEq] at hcalc
    rw [hL]
    dsimp only
    refine ⟨{ id := st2.nextId, port := port }, by rw [hcalc.1], rfl, ?_⟩
    rw [hOE, hcalc.2]
    rfl
  · intro hosc hp0
    have hst2osc : st2.osc = none := by rw [hosc2, hosc]
    have hcalc : applyOscChange st2 (some port)
        = ({ st2 with osc := some { id := st2.nextId, port := port },
                      nextId := st2.nextId + 1 },
           [CEv.oscCreate st2.nextId port]) := by
      simp [applyOscChange, hst2osc, hp0]
    rw [ho, Prod.mk.injEq] at hcalc
    rw [hL]
    dsimp only
    refine ⟨{ id := st2.nextId, port := port }, by rw [hcalc.1], rfl, ?_⟩
    rw [hOE, hcalc.2]
    rfl
  · intro hosc hp0
    subst hp0
    have hst2osc : st2.osc = none := by rw [hosc2, hosc]
    have hcalc : applyOscChange st2 (some 0) = ({ st2 with osc := none }, []) := by
      simp [applyOscChange, hst2osc]
    rw [ho, Prod.mk.injEq] at hcalc
    rw [hL]
    dsimp only
    exact ⟨by rw [hcalc.1], by rw [hOE, hcalc.2]; rfl⟩

/-- Witness for C7: reconfiguring a live source from port 7000 to 8000
destroys the old instance before creating the new one. -/
theorem oscChange_lifecycle_witness :
    ∃ inst2, (onAnyChanges rc0 (some "proj") orch0 { osc := some 8000 }).1.osc
        = some inst2 ∧
      inst2.port = 8000 ∧
      oscEvents (onAnyChanges rc0 (some "proj") orch0 { osc := some 8000 }).2
        = [CEv.oscDestroy 1, CEv.oscCreate inst2.id 8000] :=
  (oscChange_lifecycle rc0 (some "proj") orch0 { osc := some 8000 } 8000 rfl).2.2.1
    { id := 1, port := 7000 } rfl (by decide) (by decide)

/-- Claim C8: for every configuration diff carrying the `server`
option, the previously-live backend receives exactly one stop signal,
strictly before the replacement backend is constructed; the replacement
is Remote exactly when the new value is truthy, is seeded with the
current `isPlaying` flag and the last visual shader state, and the swap
modifies neither `isPlaying` nor the two shader states.  Exactly one
backend is live afterwards by the shape of the `player` field. -/
theorem serverChange_swap (rcNew : Rc) (projPath : Option String)
    (st : OrchState) (added : RcDiffAdded) (sv : String)
    (h : added.server = some sv) :
    serverEvents (onAnyChanges rcNew projPath st added).2
      = [CEv.playerStop st.player.id,
         CEv.playerCreate (onAnyChanges rcNew projPath st added).1.player.id
           (!sv.isEmpty)]
    ∧ (onAnyChanges rcNew projPath st added).1.player.isRemote = !sv.isEmpty
    ∧ (onAnyChanges rcNew projPath st added).1.player.isPlaying = st.isPlaying
    ∧ (onAnyChanges rcNew projPath st added).1.player.lastShader = st.lastShader
    ∧ (onAnyChanges rcNew projPath st added).1.isPlaying = st.isPlaying
    ∧ (onAnyChanges rcNew projPath st added).1.lastShader = st.lastShader
    ∧ (onAnyChanges rcNew projPath st added).1.lastSoundShader
        = st.lastSoundShader := by
  obtain ⟨f1, f2, f3, f4, f5, f6⟩ :=
    applyValidatorPathChange_frame st added.glslangValidatorPath
  rcases hs : applyServerChange rcNew projPath
      (applyValidatorPathChange st added.glslangValidatorPath) added.server with ⟨st2, evS⟩
  have hserver : applyServerChange rcNew projPath
      (applyValidatorPathChange st added.glslangValidatorPath) added.server
      = ({ applyValidatorPathChange st added.glslangValidatorPath with
            player := { id := (applyValidatorPathChange st added.glslangValidatorPath).nextId,
                        isRemote := !sv.isEmpty,
                        server := if sv.isEmpty then none else some sv,
                        rc := rcNew,
                        isPlaying := (applyValidatorPathChange st added.glslangValidatorPath).isPlaying,
                        lastShader := (applyValidatorPathChange st added.glslangValidatorPath).lastShader,
                        projectPath := if sv.isEmpty then none else projPath },
            nextId := (applyValidatorPathChange st added.glslangValidatorPath).nextId + 1 },
         [CEv.playerStop (applyValidatorPathChange st added.glslangValidatorPath).player.id,
          CEv.playerCreate (applyValidatorPathChange st added.glslangValidatorPath).nextId
            (!sv.isEmpty)]) := by
    rw [h]
    by_cases hsv : sv.isEmpty = true <;> simp [applyServerChange, hsv]
  rw [hs, Prod.mk.injEq] at hserver
  obtain ⟨hst2, hevS⟩ := hserver
  rcases ho : applyOscChange st2 added.osc with ⟨st3, evO⟩
  obtain ⟨g1, g2, g3, g4, g5⟩ := applyOscChange_frame st2 added.osc
  rw [ho] at g1 g2 g3 g4 g5
  dsimp only at g1 g2 g3 g4 g5
  have hL : onAnyChanges rcNew projPath st added = (st3, evS ++ evO) := by
    simp only [onAnyChanges, hs, ho]
  have hSE : serverEvents (evS ++ evO)
      = [CEv.playerStop st.player.id, CEv.playerCreate st3.player.id (!sv.isEmpty)] := by
    simp only [serverEvents] at g5 ⊢
    rw [List.filter_append, g5, List.append_nil, hevS, g1, hst2, f1]
    rfl
  rw [hL]
  dsimp only
  refine ⟨hSE, ?_, ?_, ?_, ?_, ?_, ?_⟩
  · rw [g1, hst2]
  · rw [g1, hst2]
    dsimp only
    exact f3
  · rw [g1, hst2]
    dsimp only
    exact f4
  · rw [g2, hst2]
    dsimp only
    exact f3
  · rw [g3, hst2]
    dsimp only
    exact f4
  · rw [g4, hst2]
    dsimp only
    exact f5

/-- Witness for C8: swapping to a remote backend at a concrete state
stops backend 0 first, then creates the remote backend, preserving the
session flag. -/
theorem serverChange_swap_witness :
    serverEvents (onAnyChanges rc0 (some "proj") orch0 { server := some "wss" }).2
      = [CEv.playerStop orch0.player.id,
         CEv.playerCreate
           (onAnyChanges rc0 (some "proj") orch0 { server := some "wss" }).1.player.id
           (!"wss".isEmpty)]
    ∧ (onAnyChanges rc0 (some "proj") orch0 { server := some "wss" }).1.isPlaying
        = orch0.isPlaying :=
  ⟨(serverChange_swap rc0 (some "proj") orch0 { server := some "wss" } "wss" rfl).1,
   (serverChange_swap rc0 (some "proj") orch0 { server := some "wss" } "wss"
     rfl).2.2.2.2.1⟩

end AtomVeda
